import Mathlib

/-!
Verification development for `tensorflow/c/eager/c_api_debug.cc`.

The file under study computes, for a tensor handle, the on-device
dimension sizes for debugging (`TFE_TensorDebugInfo`).  We give a shallow
embedding of its two functions:

* `TensorShapeAsVector` — reads rank and per-dimension sizes from a
  tensor handle, stopping at the first failing lookup;
* `TensorHandleInterface::TensorDebugInfo` — resolves the tensor, and on
  an XLA device obtains the padded device shape, normalizes a two-element
  tuple encoding, and reorders dimensions from the layout's
  minor-to-major order into major-to-minor order; on an ordinary device
  it returns the logical shape unchanged.

Machine integers (`int`, `int64`) are modelled as `Int`; the loops are
bounded by the rank, so no overflow is relevant to the properties here.
The unchecked proto accessors `dimensions(i)` and `minor_to_major(i)`
(out-of-range access is undefined at the source level) are totalized
with a default value `0`; the index-safety claim shows the default is
never consulted when the layout is a valid permutation.
-/

namespace CApiDebug

/-- Model of `tensorflow::Status`: `ok`, the `InvalidArgument` errors the
file constructs, and any other non-ok status. -/
inductive Status where
  | ok : Status
  | invalidArgument : String → Status
  | otherError : String → Status
deriving DecidableEq, Repr

/-- Predicate `Status::ok()`. -/
def Status.isOk : Status → Bool
  | .ok => true
  | _ => false

/-- Model of `xla::Shape` as used by this file: either an array shape
with its dimension sizes and a minor-to-major layout permutation, or a
tuple of sub-shapes. -/
inductive XShape where
  | array : List Int → List Nat → XShape
  | tuple : List XShape → XShape

/-- Accessor `xla::Shape::IsTuple()`. -/
def XShape.isTuple : XShape → Bool
  | .tuple _ => true
  | .array _ _ => false

/-- Accessor `xla::Shape::dimensions()` (empty for tuple shapes). -/
def XShape.dimensions : XShape → List Int
  | .array d _ => d
  | .tuple _ => []

/-- Accessor `xla::Shape::layout().minor_to_major()` (empty for tuple shapes). -/
def XShape.minorToMajor : XShape → List Nat
  | .array _ m => m
  | .tuple _ => []

mutual
/-- Structural shape equality, `xla::ShapeUtil::Equal`. -/
def XShape.equal : XShape → XShape → Bool
  | .array d m, .array d' m' => decide (d = d') && decide (m = m')
  | .tuple es, .tuple es' => XShape.equalList es es'
  | _, _ => false

/-- Element-wise `ShapeUtil::Equal` on tuple element lists. -/
def XShape.equalList : List XShape → List XShape → Bool
  | [], [] => true
  | a :: as, b :: bs => XShape.equal a b && XShape.equalList as bs
  | _, _ => false
end

/-- Model of a `tensorflow::TensorHandle` as the file queries it:
`NumDims` returns a status and (when ok) the rank, `Dim i` returns a
status and (when ok) the size of dimension `i`. -/
structure TensorHandle where
  numDims : Status × Nat
  dim : Nat → Status × Int

/-- The `for (int i = 0; i < rank; ++i)` loop of `TensorShapeAsVector`:
reads dimensions `start, start+1, …` while `n` iterations remain,
returning the dimensions accumulated so far together with the first
failing status (or `ok`). -/
def readDimsLoop (h : TensorHandle) (start : Nat) : Nat → List Int × Status
  | 0 => ([], Status.ok)
  | n + 1 =>
    let r := h.dim start
    if r.1.isOk then
      let rest := readDimsLoop h (start + 1) n
      (r.2 :: rest.1, rest.2)
    else
      ([], r.1)

/-- Model of `TensorShapeAsVector(handle, status)`: the returned vector paired
with the out-status. -/
def TensorShapeAsVector (h : TensorHandle) : List Int × Status :=
  let r := h.numDims
  if r.1.isOk then readDimsLoop h 0 r.2 else ([], r.1)

/-- Container `TFE_TensorDebugInfo`, holding the on-device dimension sizes. -/
structure TFE_TensorDebugInfo where
  dev_dims : List Int
deriving DecidableEq, Repr

/-- The dimension-reordering step (lines 130–141): rank-1 shapes take
the single dimension directly (the layout may be unset and is not
consulted); otherwise, for `i` from `rank-1` down to `0`, the dimension
at index `minor_to_major(i)` is appended. -/
def reorderDevDims (dims : List Int) (m2m : List Nat) : List Int :=
  let rank := dims.length
  if rank = 1 then
    [dims.getD 0 0]
  else
    (List.range rank).reverse.map fun i => dims.getD (m2m.getD i 0) 0

/-- Bounds-checked interpretation of the reordering loop's body: for
each loop index in `idxs`, look up `minor_to_major(i)` and then
`dimensions(dim_index)`, failing (`none`) if either access is out of
range.  This makes explicit the accesses the source performs without a
bounds check. -/
def lookupDims (dims : List Int) (m2m : List Nat) : List Nat → Option (List Int)
  | [] => some []
  | i :: is => do
    let idx ← m2m[i]?
    let d ← dims[idx]?
    let rest ← lookupDims dims m2m is
    pure (d :: rest)

/-- Bounds-checked variant of `reorderDevDims`: `none` exactly when some
unchecked access of the source loop would be out of range. -/
def reorderDevDimsChecked (dims : List Int) (m2m : List Nat) : Option (List Int) :=
  if dims.length = 1 then
    dims[0]?.map fun d => [d]
  else
    lookupDims dims m2m (List.range dims.length).reverse

/-- The inputs `TensorDebugInfo` consumes beyond the handle's shape
queries: the status of `handle_->Tensor(&tensor)`, whether the device
dynamic-casts to `XlaDevice`, the result of the device's
`padded_shape_fn`, and whether `VLOG_IS_ON(3)`. -/
structure DebugEnv where
  tensorStatus : Status
  isXlaDevice : Bool
  shapeFn : Status × XShape
  vlogIsOn3 : Bool
  handle : TensorHandle

/-- Model of `TensorHandleInterface::TensorDebugInfo(status)`: the returned
(possibly null) `TFE_TensorDebugInfo*` paired with the out-status. -/
def TensorDebugInfo (env : DebugEnv) : Option TFE_TensorDebugInfo × Status :=
  if !env.tensorStatus.isOk then
    (none, env.tensorStatus)
  else if env.isXlaDevice then
    if !env.shapeFn.1.isOk then
      (none, env.shapeFn.1)
    else
      -- The VLOG(3) block reads the logical shape purely for logging;
      -- a failed lookup is overwritten with OK, and every later exit
      -- assigns the status anew, so `statusAfterLog` is dead.
      let _statusAfterLog : Status :=
        if env.vlogIsOn3 then
          let r := TensorShapeAsVector env.handle
          if !r.2.isOk then Status.ok else r.2
        else
          env.shapeFn.1
      match env.shapeFn.2 with
      | XShape.tuple elems =>
        match elems with
        | [shape0, shape1] =>
          if shape0.isTuple || shape1.isTuple then
            (none, Status.invalidArgument
              "XlaTensors should not contain nested tuples.")
          else if !XShape.equal shape0 shape1 then
            (none, Status.invalidArgument
              "Subshapes of XlaTensors should be the same.")
          else
            (some ⟨reorderDevDims shape0.dimensions shape0.minorToMajor⟩,
              Status.ok)
        | _ =>
          (none, Status.invalidArgument
            "XlaTensors should only contain tuples of size 2.")
      | XShape.array d m =>
        (some ⟨reorderDevDims d m⟩, Status.ok)
  else
    let r := TensorShapeAsVector env.handle
    if !r.2.isOk then
      (none, r.2)
    else
      (some ⟨r.1⟩, r.2)

/-! ### Helper lemmas -/

theorem Status.isOk_iff {s : Status} : s.isOk = true ↔ s = Status.ok := by
  cases s <;> simp [Status.isOk]

theorem Status.isOk_false_iff {s : Status} : s.isOk = false ↔ s ≠ Status.ok := by
  cases s <;> simp [Status.isOk]

/-- When every dimension lookup in the loop's window succeeds, the loop
returns all of them in order with an OK status. -/
theorem readDimsLoop_all_ok (h : TensorHandle) (n : Nat) :
    ∀ start, (∀ i, i < n → ((h.dim (start + i)).1).isOk = true) →
      readDimsLoop h start n =
        ((List.range n).map fun k => (h.dim (start + k)).2, Status.ok) := by
  induction n with
  | zero => intro start _; rfl
  | succ m ih =>
    intro start hok
    have h0 : ((h.dim start).1).isOk = true := by simpa using hok 0 m.succ_pos
    have hrest := ih (start + 1) (fun i hi => by
      have := hok (i + 1) (by omega)
      simpa [Nat.add_assoc, Nat.add_comm 1 i] using this)
    simp only [readDimsLoop, h0, if_pos, hrest]
    refine congrArg₂ Prod.mk ?_ rfl
    rw [List.range_succ_eq_map, List.map_cons, List.map_map]
    refine congrArg₂ List.cons (by simp) (List.map_congr_left fun a _ => ?_)
    simp [Function.comp, Nat.add_assoc, Nat.add_comm 1 a]

/-- When the first failing dimension lookup in the loop's window is at
offset `i`, the loop returns the `i` dimensions before it and the
failing status. -/
theorem readDimsLoop_first_fail (h : TensorHandle) (i : Nat) :
    ∀ start n, i < n →
      (∀ j, j < i → ((h.dim (start + j)).1).isOk = true) →
      ((h.dim (start + i)).1).isOk = false →
      readDimsLoop h start n =
        ((List.range i).map fun j => (h.dim (start + j)).2, (h.dim (start + i)).1) := by
  induction i with
  | zero =>
    intro start n hn _ hfail
    cases n with
    | zero => omega
    | succ m =>
      simp only [Nat.add_zero] at hfail
      simp [readDimsLoop, hfail]
  | succ k ih =>
    intro start n hn hok hfail
    cases n with
    | zero => omega
    | succ m =>
      have h0 : ((h.dim start).1).isOk = true := by simpa using hok 0 k.succ_pos
      have hrest := ih (start + 1) m (by omega)
        (fun j hj => by
          have := hok (j + 1) (by omega)
          simpa [Nat.add_assoc, Nat.add_comm 1 j] using this)
        (by
          have : start + 1 + k = start + (k + 1) := by omega
          rw [this]; exact hfail)
      simp only [readDimsLoop, h0, if_pos, hrest]
      have harith : start + 1 + k = start + (k + 1) := by omega
      rw [← harith]
      refine congrArg₂ Prod.mk ?_ rfl
      rw [List.range_succ_eq_map, List.map_cons, List.map_map]
      refine congrArg₂ List.cons (by simp) (List.map_congr_left fun a _ => ?_)
      simp [Function.comp, Nat.add_assoc, Nat.add_comm 1 a]

/-- Running `TensorShapeAsVector` on a handle whose rank and dimension lookups
all succeed returns exactly the logical shape with an OK status. -/
theorem tensorShapeAsVector_all_ok (h : TensorHandle) (n : Nat) (d : Nat → Int)
    (hnd : h.numDims = (Status.ok, n))
    (hdim : ∀ i, i < n → h.dim i = (Status.ok, d i)) :
    TensorShapeAsVector h = ((List.range n).map d, Status.ok) := by
  have hloop := readDimsLoop_all_ok h n 0 (fun i hi => by simp [hdim i hi, Status.isOk])
  simp only [TensorShapeAsVector, hnd, Status.isOk, if_pos]
  rw [hloop]
  refine congrArg₂ _ (List.map_congr_left fun a ha => ?_) rfl
  rw [Nat.zero_add, hdim a (List.mem_range.mp ha)]

/-- Mapping the positional lookup over `range` recovers the list itself. -/
theorem map_range_getD (dims : List Int) :
    (List.range dims.length).map (fun i => dims.getD i 0) = dims := by
  apply List.ext_getElem (by simp)
  intro i h1 h2
  simp only [List.getElem_map, List.getElem_range]
  exact List.getD_eq_getElem dims 0 h2

/-- Mapping the layout-composed lookup over `range` is mapping the plain
lookup over the layout list. -/
theorem map_range_comp_getD (dims : List Int) (m2m : List Nat)
    (hlen : m2m.length = dims.length) :
    (List.range dims.length).map (fun i => dims.getD (m2m.getD i 0) 0)
      = m2m.map (fun j => dims.getD j 0) := by
  apply List.ext_getElem (by simp [hlen])
  intro i h1 h2
  have hi : i < m2m.length := by simpa using h2
  simp only [List.getElem_map, List.getElem_range]
  rw [List.getD_eq_getElem m2m 0 hi]

/-- Every run of `TensorDebugInfo` either succeeds with a container and
an OK status, or fails with no container and a non-OK status. -/
theorem tensorDebugInfo_cases (env : DebugEnv) :
    (∃ d, TensorDebugInfo env = (some d, Status.ok)) ∨
    (∃ s, TensorDebugInfo env = (none, s) ∧ s ≠ Status.ok) := by
  simp only [TensorDebugInfo]
  repeat' split
  all_goals
    first
      | exact Or.inl ⟨_, rfl⟩
      | exact Or.inr ⟨_, rfl, by simp_all [Status.isOk_false_iff]⟩
      | (simp_all [Status.isOk_iff]
         try exact Or.inl ⟨_, rfl⟩)

/-! ### The claims -/

/-- C6: whenever any stage fails (tensor resolution, the device
padded-shape function, tuple validation, or the default-path shape
read), `TensorDebugInfo` returns a null container together with the
failing status — no partial container is produced. -/
theorem failure_produces_no_container (env : DebugEnv)
    (hfail : (TensorDebugInfo env).2 ≠ Status.ok) :
    (TensorDebugInfo env).1 = none := by
  rcases tensorDebugInfo_cases env with ⟨d, hd⟩ | ⟨s, hs, _⟩
  · rw [hd] at hfail; simp at hfail
  · rw [hs]

/-- Witness for C6: a handle whose tensor resolution fails yields a null
container. -/
theorem failure_produces_no_container_witness :
    (TensorDebugInfo ⟨Status.otherError "resolve", false,
        (Status.ok, XShape.array [] []), false,
        ⟨(Status.ok, 0), fun _ => (Status.ok, 0)⟩⟩).1 = none :=
  failure_produces_no_container _ (by decide)

/-- C9: `TensorDebugInfo` returns a non-null container exactly when the
out-status it sets is OK; in particular every success path assigns OK
immediately before constructing the container, so no suppressed
intermediate error can accompany a non-null result. -/
theorem container_iff_ok_status (env : DebugEnv) :
    (TensorDebugInfo env).1 ≠ none ↔ (TensorDebugInfo env).2 = Status.ok := by
  rcases tensorDebugInfo_cases env with ⟨d, hd⟩ | ⟨s, hs, hne⟩
  · rw [hd]; simp
  · rw [hs]; simp [hne]

/-- C7: for a flat device shape of rank exactly 1, the reordering step
returns the singleton of the shape's only dimension and never consults
the layout permutation — the result is the same for any two layouts. -/
theorem rank1_layout_not_consulted (dims : List Int) (m2m m2m2 : List Nat)
    (h : dims.length = 1) :
    reorderDevDims dims m2m = [dims.getD 0 0] ∧
    reorderDevDims dims m2m = reorderDevDims dims m2m2 := by
  constructor <;> simp [reorderDevDims, h]

/-- Witness for C7: a rank-1 shape reordered under a junk layout. -/
theorem rank1_layout_not_consulted_witness :
    reorderDevDims [7] [9, 9] = [7] :=
  (rank1_layout_not_consulted [7] [9, 9] [] rfl).1

/-- C8: for a flat device shape of rank 0 on the XLA path, the operation
succeeds with an OK status and the container holds the empty dimension
sequence — rank 0 is not an error. -/
theorem rank0_empty_success (env : DebugEnv) (dims : List Int) (m2m : List Nat)
    (ht : env.tensorStatus = Status.ok)
    (hx : env.isXlaDevice = true)
    (hfn : env.shapeFn = (Status.ok, XShape.array dims m2m))
    (hr : dims.length = 0) :
    TensorDebugInfo env = (some ⟨[]⟩, Status.ok) := by
  have hnil : dims = [] := List.length_eq_zero.mp hr
  subst hnil
  obtain ⟨ts, xla, fn, v, hh⟩ := env
  simp only at ht hx hfn
  subst ht hx hfn
  simp [TensorDebugInfo, Status.isOk, reorderDevDims]

/-- Witness for C8: a concrete rank-0 XLA shape succeeds with `[]`. -/
theorem rank0_empty_success_witness :
    TensorDebugInfo ⟨Status.ok, true, (Status.ok, XShape.array [] [3]), false,
        ⟨(Status.ok, 0), fun _ => (Status.ok, 0)⟩⟩ =
      (some ⟨[]⟩, Status.ok) :=
  rank0_empty_success _ [] [3] rfl rfl rfl rfl

/-- C3: on a device that is not the XLA variant, when the rank lookup
and every dimension lookup succeed with logical shape
`[d 0, …, d (n-1)]`, `TensorDebugInfo` succeeds and the container's
dimension sequence is exactly that logical shape — no padding, tuple
normalization, or reordering is applied. -/
theorem ordinary_device_identity (env : DebugEnv) (n : Nat) (d : Nat → Int)
    (hx : env.isXlaDevice = false)
    (ht : env.tensorStatus = Status.ok)
    (hnd : env.handle.numDims = (Status.ok, n))
    (hdim : ∀ i, i < n → env.handle.dim i = (Status.ok, d i)) :
    TensorDebugInfo env = (some ⟨(List.range n).map d⟩, Status.ok) := by
  have hv := tensorShapeAsVector_all_ok env.handle n d hnd hdim
  simp [TensorDebugInfo, hx, ht, hv, Status.isOk]

/-- Witness for C3: a non-XLA handle with logical shape `[2, 3, 4]`. -/
theorem ordinary_device_identity_witness :
    TensorDebugInfo ⟨Status.ok, false, (Status.ok, XShape.array [] []), false,
        ⟨(Status.ok, 3), fun i => (Status.ok, (i : Int) + 2)⟩⟩ =
      (some ⟨(List.range 3).map fun i => (i : Int) + 2⟩, Status.ok) :=
  ordinary_device_identity _ 3 (fun i => (i : Int) + 2) rfl rfl rfl (by decide)

/-- Counterexample for C4: a handle whose rank is 2, whose dimension 0
reads as 5, and whose dimension 1 lookup fails.  `TensorShapeAsVector`
returns a non-OK status, but the returned sequence is `[5]`, not the
empty sequence the claim requires. -/
theorem shape_reader_failure_counterexample :
    (TensorShapeAsVector ⟨(Status.ok, 2),
        fun i => if i = 0 then (Status.ok, 5)
                 else (Status.otherError "dim", 0)⟩).2 ≠ Status.ok ∧
    (TensorShapeAsVector ⟨(Status.ok, 2),
        fun i => if i = 0 then (Status.ok, 5)
                 else (Status.otherError "dim", 0)⟩).1 = [5] := by
  constructor <;> decide

/-- C4 (amended): when the rank lookup fails, `TensorShapeAsVector`
returns the empty sequence with the failing status; when the first
failing dimension lookup is at index `i`, it returns the sizes of
dimensions `0 … i-1` read so far (empty only when `i = 0`) together with
that failing status. -/
theorem shape_reader_failure (h : TensorHandle) :
    (h.numDims.1 ≠ Status.ok →
      TensorShapeAsVector h = ([], h.numDims.1)) ∧
    (∀ i, h.numDims.1 = Status.ok → i < h.numDims.2 →
      (∀ j, j < i → ((h.dim j).1).isOk = true) →
      ((h.dim i).1).isOk = false →
      TensorShapeAsVector h =
        ((List.range i).map fun j => (h.dim j).2, (h.dim i).1)) := by
  constructor
  · intro hne
    have hf : (h.numDims.1).isOk = false := Status.isOk_false_iff.mpr hne
    simp [TensorShapeAsVector, hf]
  · intro i hok hi hpre hfail
    have hloop := readDimsLoop_first_fail h i 0 h.numDims.2 hi
      (fun j hj => by simpa using hpre j hj)
      (by simpa using hfail)
    simp only [Nat.zero_add] at hloop
    simp [TensorShapeAsVector, hok, Status.isOk, hloop]

/-- Witness for C4 (amended): a handle whose very first dimension lookup
fails returns the empty prefix and the failing status. -/
theorem shape_reader_failure_witness :
    TensorShapeAsVector ⟨(Status.ok, 1), fun _ => (Status.otherError "dim0", 0)⟩ =
      ((List.range 0).map fun j =>
          ((⟨(Status.ok, 1), fun _ => (Status.otherError "dim0", 0)⟩ :
              TensorHandle).dim j).2,
        ((⟨(Status.ok, 1), fun _ => (Status.otherError "dim0", 0)⟩ :
            TensorHandle).dim 0).1) :=
  (shape_reader_failure _).2 0 rfl (by decide)
    (fun j hj => absurd hj (Nat.not_lt_zero j)) (by decide)

/-- C5: on the XLA path the logical-shape lookup performed for the
`VLOG(3)` diagnostic cannot change the outcome: two runs that differ
only in the diagnostic handle and the verbosity flag produce identical
results, and in particular a run whose diagnostic lookup fails still
yields the successful container with an OK status. -/
theorem logging_noninterference (env : DebugEnv) (h1 h2 : TensorHandle) (v1 v2 : Bool)
    (hx : env.isXlaDevice = true) :
    TensorDebugInfo { env with handle := h1, vlogIsOn3 := v1 } =
      TensorDebugInfo { env with handle := h2, vlogIsOn3 := v2 } ∧
    (env.tensorStatus = Status.ok →
      ∀ d m, env.shapeFn = (Status.ok, XShape.array d m) →
        TensorDebugInfo { env with handle := h1, vlogIsOn3 := v1 } =
          (some ⟨reorderDevDims d m⟩, Status.ok)) := by
  obtain ⟨ts, xla, fn, v, hh⟩ := env
  simp only at hx
  subst hx
  constructor
  · simp [TensorDebugInfo]
  · intro ht d m hfn
    simp only at ht hfn
    subst ht hfn
    simp [TensorDebugInfo, Status.isOk]

/-- Witness for C5: with verbose logging on and a diagnostic handle
whose every lookup fails, the XLA run still succeeds. -/
theorem logging_noninterference_witness :
    TensorDebugInfo ⟨Status.ok, true, (Status.ok, XShape.array [3, 4] [0, 1]), true,
        ⟨(Status.otherError "rank", 0), fun _ => (Status.otherError "dim", 0)⟩⟩ =
      (some ⟨reorderDevDims [3, 4] [0, 1]⟩, Status.ok) :=
  (logging_noninterference
      ⟨Status.ok, true, (Status.ok, XShape.array [3, 4] [0, 1]), true,
        ⟨(Status.ok, 0), fun _ => (Status.ok, 0)⟩⟩
      ⟨(Status.otherError "rank", 0), fun _ => (Status.otherError "dim", 0)⟩
      ⟨(Status.ok, 0), fun _ => (Status.ok, 0)⟩
      true true rfl).2 rfl [3, 4] [0, 1] rfl

/-- C1: tuple-shape normalization.  The error messages are modelled
without the shape dump the source appends.  With the tensor resolved,
an XLA device, and a successful padded-shape function: a tuple of arity
other than 2 is rejected with invalid-argument, a two-element tuple with
a nested tuple is rejected, a two-element tuple of structurally unequal
non-tuple shapes is rejected, and a two-element tuple of equal non-tuple
shapes succeeds with the first sub-shape's dimensions reordered per its
layout. -/
theorem tuple_shape_normalization (env : DebugEnv) (s0 s1 : XShape)
    (elems : List XShape)
    (ht : env.tensorStatus = Status.ok)
    (hx : env.isXlaDevice = true)
    (hfn : env.shapeFn.1 = Status.ok) :
    (env.shapeFn.2 = XShape.tuple elems → elems.length ≠ 2 →
      TensorDebugInfo env =
        (none, Status.invalidArgument
          "XlaTensors should only contain tuples of size 2.")) ∧
    (env.shapeFn.2 = XShape.tuple [s0, s1] →
      (s0.isTuple || s1.isTuple) = true →
      TensorDebugInfo env =
        (none, Status.invalidArgument
          "XlaTensors should not contain nested tuples.")) ∧
    (env.shapeFn.2 = XShape.tuple [s0, s1] →
      s0.isTuple = false → s1.isTuple = false →
      XShape.equal s0 s1 = false →
      TensorDebugInfo env =
        (none, Status.invalidArgument
          "Subshapes of XlaTensors should be the same.")) ∧
    (env.shapeFn.2 = XShape.tuple [s0, s1] →
      s0.isTuple = false → s1.isTuple = false →
      XShape.equal s0 s1 = true →
      TensorDebugInfo env =
        (some ⟨reorderDevDims s0.dimensions s0.minorToMajor⟩, Status.ok)) := by
  obtain ⟨ts, xla, ⟨f1, fsh⟩, v, hh⟩ := env
  simp only at ht hx hfn
  subst ht hx hfn
  refine ⟨?_, ?_, ?_, ?_⟩
  · rintro rfl hlen
    rcases elems with _ | ⟨a, _ | ⟨b, _ | ⟨c, tl⟩⟩⟩
    · simp [TensorDebugInfo, Status.isOk]
    · simp [TensorDebugInfo, Status.isOk]
    · simp at hlen
    · simp [TensorDebugInfo, Status.isOk]
  · rintro rfl hnested
    simp [TensorDebugInfo, Status.isOk, hnested]
  · rintro rfl h0 h1 hne
    simp [TensorDebugInfo, Status.isOk, h0, h1, hne]
  · rintro rfl h0 h1 heq
    simp [TensorDebugInfo, Status.isOk, h0, h1, heq]

/-- Witness for C1: the spec's example — a tuple of two equal `[4,4]`
shapes succeeds and yields `[4,4]` reordered per its layout. -/
theorem tuple_shape_normalization_witness :
    TensorDebugInfo ⟨Status.ok, true,
        (Status.ok, XShape.tuple
          [XShape.array [4, 4] [0, 1], XShape.array [4, 4] [0, 1]]),
        false, ⟨(Status.ok, 0), fun _ => (Status.ok, 0)⟩⟩ =
      (some ⟨reorderDevDims (XShape.array [4, 4] [0, 1]).dimensions
              (XShape.array [4, 4] [0, 1]).minorToMajor⟩, Status.ok) :=
  (tuple_shape_normalization _
      (XShape.array [4, 4] [0, 1]) (XShape.array [4, 4] [0, 1]) []
      rfl rfl rfl).2.2.2 rfl rfl rfl (by decide)

/-- C2: for rank `R > 1`, when the layout is a permutation of
`0 … R-1`, the reordered sequence has length `R`, its entry at position
`j` is the dimension size at index `minor_to_major(R-1-j)` (positions
are filled from `i = R-1` down to `0`), and its multiset of dimension
sizes equals the input's. -/
theorem reorder_is_permutation (dims : List Int) (m2m : List Nat)
    (hrank : 1 < dims.length)
    (hperm : m2m.Perm (List.range dims.length)) :
    (reorderDevDims dims m2m).length = dims.length ∧
    (∀ j, j < dims.length →
      (reorderDevDims dims m2m).getD j 0 =
        dims.getD (m2m.getD (dims.length - 1 - j) 0) 0) ∧
    (reorderDevDims dims m2m).Perm dims := by
  have hne : ¬ dims.length = 1 := by omega
  have hlen : m2m.length = dims.length := by simpa using hperm.length_eq
  simp only [reorderDevDims]
  rw [if_neg hne]
  refine ⟨by simp, ?_, ?_⟩
  · intro j hj
    have hj2 : j < ((List.range dims.length).reverse.map
        fun i => dims.getD (m2m.getD i 0) 0).length := by simp [hj]
    rw [List.getD_eq_getElem _ 0 hj2]
    simp
  · have p1 : ((List.range dims.length).reverse.map
        fun i => dims.getD (m2m.getD i 0) 0).Perm
        ((List.range dims.length).map fun i => dims.getD (m2m.getD i 0) 0) :=
      (List.reverse_perm _).map _
    rw [map_range_comp_getD dims m2m hlen] at p1
    have p3 := p1.trans (hperm.map fun j => dims.getD j 0)
    rw [map_range_getD dims] at p3
    exact p3

/-- Witness for C2: the spec's end-to-end example, shape `[2,3,4]` with
minor-to-major `[0,1,2]`, whose reordering `[4,3,2]` is a permutation of
the input sizes. -/
theorem reorder_is_permutation_witness :
    reorderDevDims [2, 3, 4] [0, 1, 2] = [4, 3, 2] ∧
    (reorderDevDims [2, 3, 4] [0, 1, 2]).Perm [2, 3, 4] :=
  ⟨by decide,
    (reorder_is_permutation [2, 3, 4] [0, 1, 2] (by decide) (by decide)).2.2⟩

/-- When every loop index in `l` is in bounds for the layout and the
indicated dimension index is in bounds for the dimension list, the
bounds-checked lookup succeeds and agrees with the unchecked one. -/
theorem lookupDims_all_inbounds (dims : List Int) (m2m : List Nat)
    (l : List Nat)
    (hb : ∀ i ∈ l, i < m2m.length ∧ m2m.getD i 0 < dims.length) :
    lookupDims dims m2m l = some (l.map fun i => dims.getD (m2m.getD i 0) 0) := by
  induction l with
  | nil => rfl
  | cons a as ih =>
    obtain ⟨ha1, ha2⟩ := hb a (List.mem_cons_self a as)
    have e1 : m2m[a]? = some (m2m.getD a 0) := by
      rw [List.getElem?_eq_getElem ha1, List.getD_eq_getElem m2m 0 ha1]
    have e2 : dims[m2m.getD a 0]? = some (dims.getD (m2m.getD a 0) 0) := by
      rw [List.getElem?_eq_getElem ha2, List.getD_eq_getElem dims 0 ha2]
    simp only [lookupDims, e1, e2, Option.bind_eq_bind, Option.some_bind,
      ih fun i hi => hb i (List.mem_cons_of_mem a hi), Option.pure_def,
      List.map_cons]

/-- C10: when the layout is a valid permutation of `0 … R-1`, every
index the `R > 1` reordering loop consults is in bounds, and the
bounds-checked variant of the loop succeeds with exactly the unchecked
result — the out-of-range branch is unreachable. -/
theorem reorder_lookups_inbounds (dims : List Int) (m2m : List Nat)
    (hperm : m2m.Perm (List.range dims.length)) :
    (∀ i, i < dims.length → m2m.getD i 0 < dims.length) ∧
    reorderDevDimsChecked dims m2m = some (reorderDevDims dims m2m) := by
  have hlen : m2m.length = dims.length := by simpa using hperm.length_eq
  have hbound : ∀ i, i < dims.length → m2m.getD i 0 < dims.length := by
    intro i hi
    have hi2 : i < m2m.length := by omega
    rw [List.getD_eq_getElem m2m 0 hi2]
    have hmem : m2m[i] ∈ List.range dims.length :=
      hperm.mem_iff.mp (List.getElem_mem hi2)
    exact List.mem_range.mp hmem
  refine ⟨hbound, ?_⟩
  by_cases h1 : dims.length = 1
  · obtain ⟨d, hd⟩ := List.length_eq_one.mp h1
    subst hd
    simp [reorderDevDimsChecked, reorderDevDims]
  · have hmem : ∀ i ∈ (List.range dims.length).reverse,
        i < m2m.length ∧ m2m.getD i 0 < dims.length := by
      intro i hi
      have hlt : i < dims.length := List.mem_range.mp (List.mem_reverse.mp hi)
      exact ⟨by omega, hbound i hlt⟩
    rw [reorderDevDimsChecked, if_neg h1,
      lookupDims_all_inbounds dims m2m _ hmem]
    simp only [reorderDevDims]
    rw [if_neg h1]

/-- Witness for C10: a concrete rank-3 shape with layout `[2,0,1]`. -/
theorem reorder_lookups_inbounds_witness :
    reorderDevDimsChecked [5, 6, 7] [2, 0, 1] =
      some (reorderDevDims [5, 6, 7] [2, 0, 1]) :=
  (reorder_lookups_inbounds [5, 6, 7] [2, 0, 1] (by decide)).2

end CApiDebug
